import Mathlib

/-!
Shallow embedding of
`backend/api/quivr_api/modules/chat_llm_service/chat_llm_service.py`
(`ChatLLMService`): quota-checked construction, synchronous answer
generation, and streaming answer generation with buffered accumulation
and a single final persistence.

External collaborators (chat storage, model registry, the LLM endpoint,
wall-clock time, uuid4) are passed in as explicit parameters; observable
effects (quota resolution, the LLM call, chat-history persistence,
records yielded to the stream consumer) are recorded in an event trace.
-/

namespace Quivr

/-- Error taxonomy of the orchestrator. `unboundLocalResponse` models the
Python `UnboundLocalError` raised when the finalization code of
`generate_answer_stream` reads the loop variable `response` after a loop
that never ran. -/
inductive Err where
  | modelNotAllowed
  | quotaExceeded
  | invocationError
  | unboundLocalResponse
deriving DecidableEq, Repr

/-- A model-registry entry (the resolved `model_to_use`). -/
structure Model where
  name : String
  price : Nat
  max_input : Nat
  max_output : Nat
deriving DecidableEq, Repr

/-- Descriptive model metadata returned by `model_service.get_model`. -/
structure ModelMetadata where
  description : String
  image_url : String
  display_name : String
deriving DecidableEq, Repr

/-- `ChatLLMMetadata` from `quivr_core.models`: the descriptive model block
attached to response metadata. -/
structure ChatLLMMetadata where
  name : String
  description : String
  image_url : String
  display_name : String
  brain_id : String
  brain_name : String
deriving DecidableEq, Repr

/-- `RAGResponseMetadata`: provider-supplied fields plus the optional
descriptive model block. Provider fields are kept as an association list. -/
structure RAGResponseMetadata where
  fields : List (String × String)
  metadata_model : Option ChatLLMMetadata
deriving DecidableEq, Repr

/-- The empty metadata dictionary `{}`. -/
def RAGResponseMetadata.empty : RAGResponseMetadata := ⟨[], none⟩

/-- `ParsedRAGResponse`: the synchronous LLM answer. The `metadata` field is
optional, mirroring the `if parsed_response.metadata:` guard in the source. -/
structure ParsedRAGResponse where
  answer : String
  metadata : Option RAGResponseMetadata
deriving DecidableEq, Repr

/-- `ParsedRAGChunkResponse`: one chunk of `answer_astream`. Per the spec's
StreamChunk contract, `answer` is this chunk's text fragment, `last_chunk`
is the terminal flag, `metadata` the partial metadata. -/
structure ParsedRAGChunkResponse where
  answer : String
  metadata : RAGResponseMetadata
  last_chunk : Bool
deriving DecidableEq, Repr

/-- `GetChatHistoryOutput`: the record built for the caller (sync) or
serialized into each `data:` stream event. UUIDs and timestamps are
modelled as naturals supplied by the environment. -/
structure GetChatHistoryOutput where
  chat_id : Nat
  message_id : Nat
  user_message : String
  assistant : String
  message_time : Nat
  prompt_title : Option String
  brain_name : Option String
  brain_id : Option String
  metadata : RAGResponseMetadata
deriving DecidableEq, Repr

/-- Observable effects of one orchestrator lifecycle, in execution order. -/
inductive Event where
  | quotaResolution (model_name : String)
  | llmCall (question : String)
  | save (question : String) (answer : String) (metadata : RAGResponseMetadata)
  | yieldRecord (record : GetChatHistoryOutput)
deriving DecidableEq, Repr

def Event.isQuota : Event → Bool
  | .quotaResolution _ => true
  | _ => false

def Event.isLlmCall : Event → Bool
  | .llmCall _ => true
  | _ => false

def Event.isSave : Event → Bool
  | .save _ _ _ => true
  | _ => false

def Event.isYield : Event → Bool
  | .yieldRecord _ => true
  | _ => false

/-- The persisted turn recorded by a `save` event, if any. -/
def saveOf : Event → Option (String × String × RAGResponseMetadata)
  | .save q a m => some (q, a, m)
  | _ => none

/-- The record yielded by a `yieldRecord` event, if any. -/
def yieldOf : Event → Option GetChatHistoryOutput
  | .yieldRecord r => some r
  | _ => none

/-- The persisted turns recorded in a trace: (question, answer, metadata). -/
def saves (t : List Event) : List (String × String × RAGResponseMetadata) :=
  t.filterMap saveOf

/-- The records yielded to the stream consumer, in order. -/
def yields (t : List Event) : List GetChatHistoryOutput :=
  t.filterMap yieldOf

/-- Number of persisted turns in a trace. -/
def countSaves (t : List Event) : Nat := (saves t).length

/-- Per-user quota settings (`user_usage.get_user_settings()`): the model
allow-list and the monthly credit ceiling. -/
structure UserSettings where
  models : List String
  monthly_chat_credit : Nat
deriving DecidableEq, Repr

/-- The user's rolling usage ledger (30-day sum). -/
structure UserUsage where
  monthly_usage : Nat
deriving DecidableEq, Repr

/-- Modelled from the spec: `generate_uuid_from_string` lives in
`quivr_api.packages.utils.uuid_generator`, which is not under `src/`.
Per the spec it is a stable deterministic hash over the model name,
independent of process, time, or call order; modelled as a pure string
hash. -/
def generate_uuid_from_string (s : String) : String :=
  toString (s.foldl (fun h c => (h * 131 + c.toNat) % 982451653) 5381)

/-- Modelled from the spec: `find_model_and_generate_metadata` lives in
`quivr_api.modules.chat.controller.chat.utils`, which is not under `src/`.
Per the spec it resolves `model_name` against the user's allow-list and the
model registry, failing with `ModelNotAllowed` when the name is absent from
the allow-list (or unknown to the registry). -/
def find_model_and_generate_metadata (model_name : String)
    (user_settings : UserSettings) (all_models : List Model) :
    Except Err Model :=
  if model_name ∈ user_settings.models then
    match all_models.find? (fun m => m.name == model_name) with
    | some m => .ok m
    | none => .error .modelNotAllowed
  else
    .error .modelNotAllowed

/-- Modelled from the spec: `compute_cost` lives in
`quivr_api.modules.chat.controller.chat.utils`, which is not under `src/`.
Per the spec it computes the incremental cost of one invocation of the
resolved model (the model's unit cost). -/
def compute_cost (model_to_use : Model) (_all_models : List Model) : Nat :=
  model_to_use.price

/-- Modelled from the spec: `update_user_usage` lives in
`quivr_api.modules.chat.controller.chat.utils`, which is not under `src/`.
Per the spec it fails with `QuotaExceeded` when the projected 30-day usage
plus this cost would exceed the monthly credit ceiling, and otherwise
records the incremental cost against the ledger; no usage is recorded on
failure. -/
def update_user_usage (user_usage : UserUsage) (user_settings : UserSettings)
    (cost : Nat) : Except Err UserUsage :=
  if user_settings.monthly_chat_credit < user_usage.monthly_usage + cost then
    .error .quotaExceeded
  else
    .ok ⟨user_usage.monthly_usage + cost⟩

/-- The orchestrator instance state after construction: the chat id and the
resolved `model_to_use` (services are threaded as explicit parameters). -/
structure ChatLLMService where
  chat_id : Nat
  model_to_use : Model
deriving DecidableEq, Repr

/-- `ChatLLMService.check_and_update_user_usage`: resolve the model, compute
the cost, and record usage. Returns the outcome together with the resulting
ledger; when a step raises, the ledger passed in is returned unchanged. -/
def check_and_update_user_usage (user_settings : UserSettings)
    (all_models : List Model) (user_usage : UserUsage) (model_name : String) :
    Except Err Model × UserUsage :=
  match find_model_and_generate_metadata model_name user_settings all_models with
  | .error e => (.error e, user_usage)
  | .ok model_to_use =>
    match update_user_usage user_usage user_settings
        (compute_cost model_to_use all_models) with
    | .error e => (.error e, user_usage)
    | .ok user_usage2 => (.ok model_to_use, user_usage2)

/-- `ChatLLMService.__init__`: stores the chat id and runs
`check_and_update_user_usage` at construction time. Returns the trace of
the construction, the constructed instance or the construction error, and
the resulting ledger. -/
def ChatLLMService.construct (user_settings : UserSettings)
    (all_models : List Model) (user_usage : UserUsage) (model_name : String)
    (chat_id : Nat) :
    List Event × Except Err ChatLLMService × UserUsage :=
  match check_and_update_user_usage user_settings all_models user_usage
      model_name with
  | (.error e, u) => ([Event.quotaResolution model_name], .error e, u)
  | (.ok model_to_use, u) =>
    ([Event.quotaResolution model_name],
      .ok ⟨chat_id, model_to_use⟩, u)

/-- `ChatLLMService.save_answer`: the durable append of a finalized turn,
recorded as a `save` event (`metadata` collapses `None` to `{}` as in
`answer.metadata.model_dump() if answer.metadata else {}`). -/
def save_answer (question : String) (answer : ParsedRAGResponse) : Event :=
  Event.save question answer.answer
    (match answer.metadata with
     | some m => m
     | none => RAGResponseMetadata.empty)

/-- `ChatLLMService.generate_answer`: the synchronous path. The LLM call's
outcome is a parameter (`Except` for `InvocationError`); `new_entry` is the
(message id, message time) pair generated by the chat-history provider for
the appended row. -/
def generate_answer (svc : ChatLLMService) (model_metadata : ModelMetadata)
    (question : String) (llm_result : Except Err ParsedRAGResponse)
    (new_entry : Nat × Nat) :
    List Event × Except Err GetChatHistoryOutput :=
  match llm_result with
  | .error e => ([Event.llmCall question], .error e)
  | .ok parsed_response =>
    let parsed_response2 :=
      match parsed_response.metadata with
      | some md =>
        { parsed_response with
          metadata := some
            { md with
              metadata_model := some
                { name := svc.model_to_use.name
                  description := model_metadata.description
                  image_url := model_metadata.image_url
                  display_name := model_metadata.display_name
                  brain_id := generate_uuid_from_string svc.model_to_use.name
                  brain_name := svc.model_to_use.name } } }
      | none => parsed_response
    ([Event.llmCall question, save_answer question parsed_response2],
      .ok
        { chat_id := svc.chat_id
          message_id := new_entry.1
          user_message := question
          assistant := parsed_response2.answer
          message_time := new_entry.2
          prompt_title := none
          brain_name := none
          brain_id := none
          metadata :=
            match parsed_response2.metadata with
            | some m => m
            | none => RAGResponseMetadata.empty })

/-- The `GetChatHistoryOutput` built from `message_metadata` plus the
current assistant text and metadata, as in the streaming path. -/
def mkStreamRecord (svc : ChatLLMService) (question : String)
    (message_id message_time : Nat) (assistant : String)
    (metadata : RAGResponseMetadata) : GetChatHistoryOutput :=
  { chat_id := svc.chat_id
    message_id := message_id
    user_message := question
    assistant := assistant
    message_time := message_time
    prompt_title := none
    brain_name := none
    brain_id := none
    metadata := metadata }

/-- The body of `async for response in chat_llm.answer_astream(...)`:
non-terminal chunks build a record from the chunk's own text, append the
text to `full_answer` and yield; a terminal chunk arriving while
`full_answer` is empty adopts the terminal chunk's text. Returns the
events of the loop and the final `full_answer`. -/
def streamLoop (svc : ChatLLMService) (question : String)
    (message_id message_time : Nat) :
    List ParsedRAGChunkResponse → String → List Event × String
  | [], full_answer => ([], full_answer)
  | response :: rest, full_answer =>
    let step : List Event × String :=
      if !response.last_chunk then
        ([Event.yieldRecord
            (mkStreamRecord svc question message_id message_time
              response.answer response.metadata)],
          full_answer ++ response.answer)
      else if full_answer = "" then
        ([], full_answer ++ response.answer)
      else
        ([], full_answer)
    let restResult :=
      streamLoop svc question message_id message_time rest step.2
    (step.1 ++ restResult.1, restResult.2)

/-- `ChatLLMService.generate_answer_stream`: the streaming path. The
provider stream is the list of delivered chunks; `stream_fails` marks a
stream whose production raises `InvocationError` after those chunks
(before a terminal chunk). On normal exhaustion, the finalization code
reads the loop variable (the last delivered chunk): an empty stream leaves
it unbound and the generator raises instead of finalizing. Otherwise it
enriches the last chunk's metadata with the descriptive model block,
persists via `save_answer`, and yields the final record. -/
def generate_answer_stream (svc : ChatLLMService)
    (model_metadata : ModelMetadata) (question : String)
    (message_id message_time : Nat)
    (chunks : List ParsedRAGChunkResponse) (stream_fails : Bool) :
    List Event × Except Err Unit :=
  let loopResult := streamLoop svc question message_id message_time chunks ""
  if stream_fails then
    (Event.llmCall question :: loopResult.1, .error .invocationError)
  else
    match chunks.getLast? with
    | none =>
      (Event.llmCall question :: loopResult.1, .error .unboundLocalResponse)
    | some response =>
      let metadata : RAGResponseMetadata :=
        { response.metadata with
          metadata_model := some
            { name := svc.model_to_use.name
              description := model_metadata.description
              image_url := model_metadata.image_url
              display_name := model_metadata.display_name
              brain_id := generate_uuid_from_string svc.model_to_use.name
              brain_name := svc.model_to_use.name } }
      let streamed_chat_history :=
        mkStreamRecord svc question message_id message_time
          loopResult.2 metadata
      (Event.llmCall question :: loopResult.1 ++
        [Event.save question loopResult.2 metadata,
         Event.yieldRecord streamed_chat_history],
        .ok ())

/-- One full synchronous lifecycle: construct, then `generate_answer`. -/
def run_generate (user_settings : UserSettings) (all_models : List Model)
    (user_usage : UserUsage) (model_name : String) (chat_id : Nat)
    (model_metadata : ModelMetadata) (question : String)
    (llm_result : Except Err ParsedRAGResponse) (new_entry : Nat × Nat) :
    List Event × Except Err GetChatHistoryOutput :=
  match ChatLLMService.construct user_settings all_models user_usage
      model_name chat_id with
  | (t, .error e, _) => (t, .error e)
  | (t, .ok svc, _) =>
    let r := generate_answer svc model_metadata question llm_result new_entry
    (t ++ r.1, r.2)

/-- One full streaming lifecycle: construct, then `generate_answer_stream`. -/
def run_generate_stream (user_settings : UserSettings)
    (all_models : List Model) (user_usage : UserUsage) (model_name : String)
    (chat_id : Nat) (model_metadata : ModelMetadata) (question : String)
    (message_id message_time : Nat)
    (chunks : List ParsedRAGChunkResponse) (stream_fails : Bool) :
    List Event × Except Err Unit :=
  match ChatLLMService.construct user_settings all_models user_usage
      model_name chat_id with
  | (t, .error e, _) => (t, .error e)
  | (t, .ok svc, _) =>
    let r := generate_answer_stream svc model_metadata question
      message_id message_time chunks stream_fails
    (t ++ r.1, r.2)

/-- In-order concatenation of the chunk texts of a list of chunks. -/
def concatText : List ParsedRAGChunkResponse → String
  | [] => ""
  | c :: rest => c.answer ++ concatText rest

/-- The descriptive model block as both generation paths construct it. -/
def chatLLMMetadataFor (model_name : String) (mm : ModelMetadata) :
    ChatLLMMetadata :=
  { name := model_name
    description := mm.description
    image_url := mm.image_url
    display_name := mm.display_name
    brain_id := generate_uuid_from_string model_name
    brain_name := model_name }

/-- The answer finalized at the terminal chunk `t` of a stream whose
non-terminal chunks are `front`: the accumulated buffer, or the terminal
chunk's own text when the buffer is empty. -/
def finalAnswer (front : List ParsedRAGChunkResponse)
    (t : ParsedRAGChunkResponse) : String :=
  if concatText front = "" then t.answer else concatText front

/-- The final metadata built at the terminal chunk `t`: the chunk's partial
metadata enriched with the descriptive model block. -/
def finalMetadata (svc : ChatLLMService) (mm : ModelMetadata)
    (t : ParsedRAGChunkResponse) : RAGResponseMetadata :=
  { t.metadata with
    metadata_model := some (chatLLMMetadataFor svc.model_to_use.name mm) }

/-- The events executed by the generator when the consumer pulls exactly
`n` records: the prefix of the trace up to and including the n-th yield
(the generator suspends at each yield). -/
def takeYields : Nat → List Event → List Event
  | _, [] => []
  | 0, _ => []
  | n + 1, e :: rest =>
    if e.isYield then
      e :: takeYields n rest
    else
      e :: takeYields (n + 1) rest

/-! ## Concrete sample values (used by witnesses and counterexamples) -/

def sampleModel : Model := ⟨"model-x", 1, 100, 100⟩

def sampleService : ChatLLMService := ⟨7, sampleModel⟩

def sampleModelMetadata : ModelMetadata := ⟨"a model", "img.png", "Model X"⟩

def chunkA : ParsedRAGChunkResponse := ⟨"a", RAGResponseMetadata.empty, false⟩

def chunkB : ParsedRAGChunkResponse := ⟨"b", RAGResponseMetadata.empty, false⟩

def chunkEnd : ParsedRAGChunkResponse := ⟨"", RAGResponseMetadata.empty, true⟩

def chunkOnly : ParsedRAGChunkResponse := ⟨"hi", RAGResponseMetadata.empty, true⟩

def sampleSettings : UserSettings := ⟨["model-x"], 10⟩

def sampleUsage : UserUsage := ⟨3⟩

def sampleResponse : ParsedRAGResponse :=
  ⟨"4", some ⟨[("sources", "none")], none⟩⟩

/-! ## Helper lemmas -/

lemma saves_cons_of_not_save (e : Event) (l : List Event)
    (h : e.isSave = false) : saves (e :: l) = saves l := by
  cases e <;> simp_all [saves, saveOf, Event.isSave, List.filterMap_cons]

lemma streamLoop_events (svc : ChatLLMService) (q : String) (a b : Nat) :
    ∀ (chunks : List ParsedRAGChunkResponse) (fa : String),
      (streamLoop svc q a b chunks fa).1 =
        (chunks.filter fun c => !c.last_chunk).map
          (fun c =>
            Event.yieldRecord (mkStreamRecord svc q a b c.answer c.metadata))
  | [], fa => by simp [streamLoop]
  | c :: rest, fa => by
    cases hc : c.last_chunk with
    | false => simp [streamLoop, hc, streamLoop_events svc q a b rest]
    | true =>
      by_cases hfa : fa = "" <;>
        simp [streamLoop, hc, hfa, streamLoop_events svc q a b rest]

lemma streamLoop_append (svc : ChatLLMService) (q : String) (a b : Nat) :
    ∀ (l1 l2 : List ParsedRAGChunkResponse) (fa : String),
      streamLoop svc q a b (l1 ++ l2) fa =
        ((streamLoop svc q a b l1 fa).1 ++
            (streamLoop svc q a b l2 (streamLoop svc q a b l1 fa).2).1,
          (streamLoop svc q a b l2 (streamLoop svc q a b l1 fa).2).2)
  | [], l2, fa => by simp [streamLoop]
  | c :: rest, l2, fa => by
    simp [streamLoop, streamLoop_append svc q a b rest l2, List.append_assoc]

lemma streamLoop_answer_nonterminal (svc : ChatLLMService) (q : String)
    (a b : Nat) :
    ∀ (chunks : List ParsedRAGChunkResponse) (fa : String),
      (∀ c ∈ chunks, c.last_chunk = false) →
      (streamLoop svc q a b chunks fa).2 = fa ++ concatText chunks
  | [], fa, _ => by simp [streamLoop, concatText, String.append_empty]
  | c :: rest, fa, h => by
    have hc : c.last_chunk = false := h c (List.mem_cons_self c rest)
    have hrest : ∀ x ∈ rest, x.last_chunk = false := fun x hx =>
      h x (List.mem_cons_of_mem c hx)
    simp [streamLoop, hc, concatText,
      streamLoop_answer_nonterminal svc q a b rest (fa ++ c.answer) hrest,
      String.append_assoc]

/-- Full characterization of a normally-terminated stream: non-terminal
chunks `front`, then the terminal chunk `t`. -/
lemma generate_answer_stream_spec (svc : ChatLLMService)
    (mm : ModelMetadata) (q : String) (a b : Nat)
    (front : List ParsedRAGChunkResponse) (t : ParsedRAGChunkResponse)
    (hf : ∀ c ∈ front, c.last_chunk = false) (ht : t.last_chunk = true) :
    generate_answer_stream svc mm q a b (front ++ [t]) false =
      (Event.llmCall q ::
        (front.map fun c =>
          Event.yieldRecord (mkStreamRecord svc q a b c.answer c.metadata)) ++
        [Event.save q (finalAnswer front t) (finalMetadata svc mm t),
         Event.yieldRecord
           (mkStreamRecord svc q a b (finalAnswer front t)
             (finalMetadata svc mm t))],
       .ok ()) := by
  have hlast : (front ++ [t]).getLast? = some t := List.getLast?_concat front
  have hfilter : (front ++ [t]).filter (fun c => !c.last_chunk) = front := by
    rw [List.filter_append]
    have h1 : front.filter (fun c => !c.last_chunk) = front :=
      List.filter_eq_self.mpr (fun c hc => by simp [hf c hc])
    have h2 : [t].filter (fun c => !c.last_chunk) = [] := by
      simp [List.filter, ht]
    rw [h1, h2, List.append_nil]
  have hev := streamLoop_events svc q a b (front ++ [t]) ""
  rw [hfilter] at hev
  have hfront : (streamLoop svc q a b front "").2 = concatText front := by
    rw [streamLoop_answer_nonterminal svc q a b front "" hf,
      String.empty_append]
  have hfull : (streamLoop svc q a b (front ++ [t]) "").2 =
      finalAnswer front t := by
    rw [streamLoop_append svc q a b front [t] "", hfront]
    by_cases h0 : concatText front = ""
    · simp [streamLoop, ht, h0, finalAnswer, String.empty_append]
    · simp [streamLoop, ht, h0, finalAnswer]
  simp only [generate_answer_stream, Bool.false_eq_true, if_false, hlast,
    hev, hfull]
  rfl

/-- The trace of a normally-terminated stream, first component of
`generate_answer_stream_spec`. -/
lemma generate_answer_stream_spec_fst (svc : ChatLLMService)
    (mm : ModelMetadata) (q : String) (a b : Nat)
    (front : List ParsedRAGChunkResponse) (t : ParsedRAGChunkResponse)
    (hf : ∀ c ∈ front, c.last_chunk = false) (ht : t.last_chunk = true) :
    (generate_answer_stream svc mm q a b (front ++ [t]) false).1 =
      Event.llmCall q ::
        (front.map fun c =>
          Event.yieldRecord (mkStreamRecord svc q a b c.answer c.metadata)) ++
        [Event.save q (finalAnswer front t) (finalMetadata svc mm t),
         Event.yieldRecord
           (mkStreamRecord svc q a b (finalAnswer front t)
             (finalMetadata svc mm t))] := by
  rw [generate_answer_stream_spec svc mm q a b front t hf ht]

/-- The trace of a stream whose production raises after delivering
`chunks`: the LLM call followed by the partial-record yields only. -/
lemma generate_answer_stream_fails_fst (svc : ChatLLMService)
    (mm : ModelMetadata) (q : String) (a b : Nat)
    (chunks : List ParsedRAGChunkResponse) :
    (generate_answer_stream svc mm q a b chunks true).1 =
      Event.llmCall q :: (streamLoop svc q a b chunks "").1 := rfl

/-- The trace of a normally-exhausted stream with a last delivered chunk
`response`, without assumptions on terminal flags. -/
lemma generate_answer_stream_success_fst (svc : ChatLLMService)
    (mm : ModelMetadata) (q : String) (a b : Nat)
    (chunks : List ParsedRAGChunkResponse) (response : ParsedRAGChunkResponse)
    (hlast : chunks.getLast? = some response) :
    (generate_answer_stream svc mm q a b chunks false).1 =
      Event.llmCall q :: (streamLoop svc q a b chunks "").1 ++
        [Event.save q (streamLoop svc q a b chunks "").2
           { response.metadata with
             metadata_model :=
               some (chatLLMMetadataFor svc.model_to_use.name mm) },
         Event.yieldRecord
           (mkStreamRecord svc q a b (streamLoop svc q a b chunks "").2
             { response.metadata with
               metadata_model :=
                 some (chatLLMMetadataFor svc.model_to_use.name mm) })] := by
  unfold generate_answer_stream
  rw [hlast]
  rfl

lemma yields_map_yieldRecord (f : ParsedRAGChunkResponse →
    GetChatHistoryOutput) (l : List ParsedRAGChunkResponse) :
    yields (l.map fun c => Event.yieldRecord (f c)) = l.map f := by
  induction l with
  | nil => rfl
  | cons c rest ih => simp [yields, yieldOf, List.filterMap_cons] at ih ⊢
                      exact ih

lemma saves_map_yieldRecord (f : ParsedRAGChunkResponse →
    GetChatHistoryOutput) (l : List ParsedRAGChunkResponse) :
    saves (l.map fun c => Event.yieldRecord (f c)) = [] := by
  induction l with
  | nil => rfl
  | cons c rest ih => simp [saves, saveOf, List.filterMap_cons, ih]

lemma countSaves_cons_of_not_save (e : Event) (l : List Event)
    (h : e.isSave = false) : countSaves (e :: l) = countSaves l := by
  simp [countSaves, saves_cons_of_not_save e l h]

lemma takeYields_zero (l : List Event) : takeYields 0 l = [] := by
  cases l <;> rfl

lemma countSaves_takeYields_of_clean (P : List Event) :
    ∀ (B : List Event) (n : Nat), (∀ e ∈ P, e.isSave = false) →
      n ≤ (yields P).length → countSaves (takeYields n (P ++ B)) = 0 := by
  induction P with
  | nil =>
    intro B n _ hn
    simp [yields] at hn
    rw [hn, List.nil_append, takeYields_zero]
    rfl
  | cons e P ih =>
    intro B n hP hn
    cases n with
    | zero => rw [takeYields_zero]; rfl
    | succ m =>
      have he : e.isSave = false := hP e (List.mem_cons_self e P)
      have hP2 : ∀ x ∈ P, x.isSave = false := fun x hx =>
        hP x (List.mem_cons_of_mem e hx)
      cases hy : e.isYield with
      | true =>
        have hn2 : m ≤ (yields P).length := by
          cases e <;> simp_all [yields, yieldOf, Event.isYield,
            List.filterMap_cons]
        rw [List.cons_append]
        simp only [takeYields, hy, if_true]
        rw [countSaves_cons_of_not_save e _ he]
        exact ih B m hP2 hn2
      | false =>
        have hn2 : m + 1 ≤ (yields P).length := by
          cases e <;> simp_all [yields, yieldOf, Event.isYield,
            List.filterMap_cons]
        rw [List.cons_append]
        simp only [takeYields, hy, Bool.false_eq_true, if_false]
        rw [countSaves_cons_of_not_save e _ he]
        exact ih B (m + 1) hP2 hn2

lemma saves_append (l1 l2 : List Event) :
    saves (l1 ++ l2) = saves l1 ++ saves l2 := by
  simp [saves, List.filterMap_append]

lemma yields_append (l1 l2 : List Event) :
    yields (l1 ++ l2) = yields l1 ++ yields l2 := by
  simp [yields, List.filterMap_append]

lemma yields_cons_of_not_yield (e : Event) (l : List Event)
    (h : e.isYield = false) : yields (e :: l) = yields l := by
  cases e <;> simp_all [yields, yieldOf, Event.isYield, List.filterMap_cons]

lemma saves_partial_records (svc : ChatLLMService) (q : String) (a b : Nat)
    (l : List ParsedRAGChunkResponse) :
    saves (l.map fun c =>
      Event.yieldRecord (mkStreamRecord svc q a b c.answer c.metadata)) =
    [] :=
  saves_map_yieldRecord _ l

lemma yields_partial_records (svc : ChatLLMService) (q : String) (a b : Nat)
    (l : List ParsedRAGChunkResponse) :
    yields (l.map fun c =>
      Event.yieldRecord (mkStreamRecord svc q a b c.answer c.metadata)) =
    l.map (fun c => mkStreamRecord svc q a b c.answer c.metadata) :=
  yields_map_yieldRecord _ l

lemma streamLoop_events_are_yields (svc : ChatLLMService) (q : String)
    (a b : Nat) (chunks : List ParsedRAGChunkResponse) (fa : String) :
    ∀ e ∈ (streamLoop svc q a b chunks fa).1, ∃ r, e = Event.yieldRecord r := by
  intro e he
  rw [streamLoop_events] at he
  simp only [List.mem_map] at he
  obtain ⟨c, _, rfl⟩ := he
  exact ⟨_, rfl⟩

lemma construct_trace (user_settings : UserSettings) (all_models : List Model)
    (user_usage : UserUsage) (model_name : String) (chat_id : Nat) :
    (ChatLLMService.construct user_settings all_models user_usage model_name
        chat_id).1 = [Event.quotaResolution model_name] := by
  unfold ChatLLMService.construct
  rcases check_and_update_user_usage user_settings all_models user_usage
      model_name with ⟨e | m, u⟩ <;> rfl

lemma generate_answer_events (svc : ChatLLMService) (mm : ModelMetadata)
    (q : String) (p : ParsedRAGResponse) (ne : Nat × Nat) :
    ∃ p2, (generate_answer svc mm q (.ok p) ne).1 =
      [Event.llmCall q, save_answer q p2] := by
  cases hp : p.metadata <;> simp [generate_answer, hp]

lemma generate_answer_no_quota (svc : ChatLLMService) (mm : ModelMetadata)
    (q : String) (llm_result : Except Err ParsedRAGResponse)
    (ne : Nat × Nat) :
    ∀ e ∈ (generate_answer svc mm q llm_result ne).1, e.isQuota = false := by
  intro e he
  cases llm_result with
  | error err =>
    simp [generate_answer] at he
    subst he; rfl
  | ok p =>
    obtain ⟨p2, hp2⟩ := generate_answer_events svc mm q p ne
    rw [hp2] at he
    simp only [List.mem_cons, List.mem_singleton, List.not_mem_nil,
      or_false] at he
    rcases he with rfl | rfl
    · rfl
    · simp [save_answer, Event.isQuota]

lemma generate_answer_stream_no_quota (svc : ChatLLMService)
    (mm : ModelMetadata) (q : String) (a b : Nat)
    (chunks : List ParsedRAGChunkResponse) (stream_fails : Bool) :
    ∀ e ∈ (generate_answer_stream svc mm q a b chunks stream_fails).1,
      e.isQuota = false := by
  intro e he
  have hloop : ∀ x ∈ (streamLoop svc q a b chunks "").1, x.isQuota = false := by
    intro x hx
    obtain ⟨r, rfl⟩ := streamLoop_events_are_yields svc q a b chunks "" x hx
    rfl
  unfold generate_answer_stream at he
  cases stream_fails with
  | true =>
    simp only [if_true] at he
    rcases List.mem_cons.mp he with rfl | h2
    · rfl
    · exact hloop e h2
  | false =>
    simp only [Bool.false_eq_true, if_false] at he
    cases hlast : chunks.getLast? with
    | none =>
      rw [hlast] at he
      rcases List.mem_cons.mp he with rfl | h2
      · rfl
      · exact hloop e h2
    | some response =>
      rw [hlast] at he
      simp only [List.cons_append, List.mem_cons, List.mem_append,
        List.mem_singleton, List.not_mem_nil, or_false] at he
      rcases he with rfl | h2 | rfl | rfl
      · rfl
      · exact hloop e h2
      · rfl
      · rfl

/-- Full characterization of a successful synchronous call whose LLM
response carries a metadata record. -/
lemma generate_answer_ok_some (svc : ChatLLMService) (mm : ModelMetadata)
    (q : String) (p : ParsedRAGResponse) (md : RAGResponseMetadata)
    (ne : Nat × Nat) (hmd : p.metadata = some md) :
    generate_answer svc mm q (.ok p) ne =
      ([Event.llmCall q,
        Event.save q p.answer
          { md with
            metadata_model :=
              some (chatLLMMetadataFor svc.model_to_use.name mm) }],
       .ok { chat_id := svc.chat_id
             message_id := ne.1
             user_message := q
             assistant := p.answer
             message_time := ne.2
             prompt_title := none
             brain_name := none
             brain_id := none
             metadata :=
               { md with
                 metadata_model :=
                   some (chatLLMMetadataFor svc.model_to_use.name mm) } }) := by
  simp [generate_answer, hmd, save_answer, chatLLMMetadataFor]

lemma yields_trace_length (q q2 A : String) (M : RAGResponseMetadata)
    (L : List Event) (r : GetChatHistoryOutput) :
    (yields ((Event.llmCall q :: L) ++
        [Event.save q2 A M, Event.yieldRecord r])).length =
      (yields L).length + 1 := by
  rw [yields_append, yields_cons_of_not_yield (Event.llmCall q) _ rfl,
    yields_cons_of_not_yield (Event.save q2 A M) _ rfl]
  simp [yields, yieldOf, List.filterMap_cons]

/-! ## Claims -/

/-- C10: a provider stream that yields no chunks at all makes
`generate_answer_stream` raise (the finalization code reads the unbound
loop variable `response`), emitting no record and persisting no turn: the
whole run is just the LLM call followed by the error. -/
theorem empty_stream_raises_no_persist (svc : ChatLLMService)
    (mm : ModelMetadata) (q : String) (a b : Nat) :
    generate_answer_stream svc mm q a b [] false =
      ([Event.llmCall q], .error .unboundLocalResponse) := by
  rfl

/-- C3: construction with a model name absent from the user's allow-list
fails with `ModelNotAllowed` and leaves the usage ledger unchanged: model
resolution raises before `update_user_usage` is reached. -/
theorem model_not_allowed_ledger_unchanged (user_settings : UserSettings)
    (all_models : List Model) (user_usage : UserUsage) (model_name : String)
    (chat_id : Nat) (h : model_name ∉ user_settings.models) :
    check_and_update_user_usage user_settings all_models user_usage
        model_name = (.error .modelNotAllowed, user_usage) ∧
    ChatLLMService.construct user_settings all_models user_usage model_name
        chat_id =
      ([Event.quotaResolution model_name], .error .modelNotAllowed,
        user_usage) := by
  have hc : check_and_update_user_usage user_settings all_models user_usage
      model_name = (.error .modelNotAllowed, user_usage) := by
    unfold check_and_update_user_usage find_model_and_generate_metadata
    rw [if_neg h]
  refine ⟨hc, ?_⟩
  unfold ChatLLMService.construct
  rw [hc]

theorem model_not_allowed_ledger_unchanged_witness :
    "model-y" ∉ sampleSettings.models ∧
    check_and_update_user_usage sampleSettings [sampleModel] sampleUsage
        "model-y" = (.error .modelNotAllowed, sampleUsage) := by
  refine ⟨by decide, ?_⟩
  exact (model_not_allowed_ledger_unchanged sampleSettings [sampleModel]
    sampleUsage "model-y" 7 (by decide)).1

/-- C2: quota resolution is the first event of every lifecycle — it happens
exactly once, at construction, and every other event (in particular the
LLM call and any persistence) comes strictly after it, on both the
synchronous and the streaming path. -/
theorem quota_resolution_once_before_effects (user_settings : UserSettings)
    (all_models : List Model) (user_usage : UserUsage) (model_name : String)
    (chat_id : Nat) (mm : ModelMetadata) (q : String)
    (llm_result : Except Err ParsedRAGResponse) (ne : Nat × Nat)
    (a b : Nat) (chunks : List ParsedRAGChunkResponse)
    (stream_fails : Bool) :
    ((run_generate user_settings all_models user_usage model_name chat_id
        mm q llm_result ne).1.head? =
          some (Event.quotaResolution model_name) ∧
      ∀ e ∈ (run_generate user_settings all_models user_usage model_name
        chat_id mm q llm_result ne).1.tail, e.isQuota = false) ∧
    ((run_generate_stream user_settings all_models user_usage model_name
        chat_id mm q a b chunks stream_fails).1.head? =
          some (Event.quotaResolution model_name) ∧
      ∀ e ∈ (run_generate_stream user_settings all_models user_usage
        model_name chat_id mm q a b chunks stream_fails).1.tail,
        e.isQuota = false) := by
  have hct := construct_trace user_settings all_models user_usage model_name
    chat_id
  constructor
  · unfold run_generate
    rcases hc : ChatLLMService.construct user_settings all_models user_usage
        model_name chat_id with ⟨t, e | svc, u⟩ <;>
      rw [hc] at hct <;> simp only at hct <;> subst hct
    · exact ⟨rfl, by intro e he; simp at he⟩
    · refine ⟨rfl, ?_⟩
      intro ev hev
      simp only [List.cons_append, List.tail_cons, List.nil_append] at hev
      exact generate_answer_no_quota svc mm q llm_result ne ev hev
  · unfold run_generate_stream
    rcases hc : ChatLLMService.construct user_settings all_models user_usage
        model_name chat_id with ⟨t, e | svc, u⟩ <;>
      rw [hc] at hct <;> simp only at hct <;> subst hct
    · exact ⟨rfl, by intro e he; simp at he⟩
    · refine ⟨rfl, ?_⟩
      intro ev hev
      simp only [List.cons_append, List.tail_cons, List.nil_append] at hev
      exact generate_answer_stream_no_quota svc mm q a b chunks stream_fails
        ev hev

/-- C1: exactly-once persistence — a successful synchronous call and a
fully-consumed stream each record exactly one `save`; a failed synchronous
LLM call and a stream that raises before its terminal chunk record none. -/
theorem exactly_once_persistence (svc : ChatLLMService) (mm : ModelMetadata)
    (q : String) (p : ParsedRAGResponse) (err : Err) (ne : Nat × Nat)
    (a b : Nat) (chunks : List ParsedRAGChunkResponse)
    (h : chunks ≠ []) :
    countSaves (generate_answer svc mm q (.ok p) ne).1 = 1 ∧
    countSaves (generate_answer svc mm q (.error err) ne).1 = 0 ∧
    countSaves (generate_answer_stream svc mm q a b chunks false).1 = 1 ∧
    countSaves (generate_answer_stream svc mm q a b chunks true).1 = 0 := by
  have hloop : saves (streamLoop svc q a b chunks "").1 = [] := by
    rw [streamLoop_events]
    exact saves_partial_records svc q a b _
  refine ⟨?_, rfl, ?_, ?_⟩
  · obtain ⟨p2, hp2⟩ := generate_answer_events svc mm q p ne
    rw [hp2]
    simp [countSaves, saves, saveOf, save_answer, List.filterMap_cons]
  · cases hlast : chunks.getLast? with
    | none => exact absurd (List.getLast?_eq_none_iff.mp hlast) h
    | some response =>
      rw [countSaves,
        generate_answer_stream_success_fst svc mm q a b chunks response hlast,
        saves_append, saves_cons_of_not_save (Event.llmCall q) _ rfl, hloop]
      rfl
  · rw [countSaves, generate_answer_stream_fails_fst svc mm q a b chunks,
      saves_cons_of_not_save (Event.llmCall q) _ rfl, hloop]
    rfl

theorem exactly_once_persistence_witness :
    countSaves (generate_answer sampleService sampleModelMetadata "q"
      (.ok sampleResponse) (1, 2)).1 = 1 ∧
    countSaves (generate_answer sampleService sampleModelMetadata "q"
      (.error .invocationError) (1, 2)).1 = 0 ∧
    countSaves (generate_answer_stream sampleService sampleModelMetadata "q"
      0 0 [chunkA, chunkEnd] false).1 = 1 ∧
    countSaves (generate_answer_stream sampleService sampleModelMetadata "q"
      0 0 [chunkA, chunkEnd] true).1 = 0 :=
  exactly_once_persistence sampleService sampleModelMetadata "q"
    sampleResponse .invocationError (1, 2) 0 0 [chunkA, chunkEnd]
    (by decide)

/-- C4: streaming completeness — the persisted answer of a stream whose
non-terminal chunks are `front` and whose terminal chunk is `t` is the
in-order concatenation of the non-terminal texts, except when that
concatenation is empty, in which case it is the terminal chunk's text. -/
theorem streaming_completeness (svc : ChatLLMService) (mm : ModelMetadata)
    (q : String) (a b : Nat) (front : List ParsedRAGChunkResponse)
    (t : ParsedRAGChunkResponse)
    (hf : ∀ c ∈ front, c.last_chunk = false) (ht : t.last_chunk = true) :
    (saves (generate_answer_stream svc mm q a b (front ++ [t]) false).1).map
        (fun s => s.2.1) =
      [if concatText front = "" then t.answer else concatText front] := by
  rw [generate_answer_stream_spec_fst svc mm q a b front t hf ht]
  rw [saves_append, saves_cons_of_not_save (Event.llmCall q) _ rfl,
    saves_partial_records svc q a b front]
  rfl

theorem streaming_completeness_witness :
    (∀ c ∈ [chunkA, chunkB], c.last_chunk = false) ∧
    (saves (generate_answer_stream sampleService sampleModelMetadata "q" 0 0
        ([chunkA, chunkB] ++ [chunkEnd]) false).1).map (fun s => s.2.1) =
      [if concatText [chunkA, chunkB] = "" then chunkEnd.answer
       else concatText [chunkA, chunkB]] :=
  ⟨by decide,
    streaming_completeness sampleService sampleModelMetadata "q" 0 0
      [chunkA, chunkB] chunkEnd (by decide) (by decide)⟩

/-- C5: the claim that each partial output record carries the cumulative
buffer is false on the code — with non-terminal fragments "a" then "b",
the second partial record carries "b", not "ab"; the code builds each
partial record from `response.answer` alone. -/
theorem partial_record_not_cumulative_cex :
    ¬ ((yields (generate_answer_stream sampleService sampleModelMetadata "q"
          0 0 [chunkA, chunkB, chunkEnd] false).1).map
            (fun r => r.assistant) = ["a", "ab", "ab"]) ∧
    (yields (generate_answer_stream sampleService sampleModelMetadata "q"
        0 0 [chunkA, chunkB, chunkEnd] false).1).map
          (fun r => r.assistant) = ["a", "b", "ab"] := by
  constructor <;> decide

/-- C5 (amended): each partial output record emitted for a non-terminal
chunk carries exactly that chunk's own text fragment (and its partial
metadata), not the cumulative buffer: the partial records of a stream are
in bijection with its non-terminal chunks. -/
theorem partial_records_carry_chunk_fragment (svc : ChatLLMService)
    (mm : ModelMetadata) (q : String) (a b : Nat)
    (front : List ParsedRAGChunkResponse) (t : ParsedRAGChunkResponse)
    (hf : ∀ c ∈ front, c.last_chunk = false) (ht : t.last_chunk = true) :
    (yields (generate_answer_stream svc mm q a b (front ++ [t])
        false).1).dropLast =
      front.map (fun c => mkStreamRecord svc q a b c.answer c.metadata) := by
  rw [generate_answer_stream_spec_fst svc mm q a b front t hf ht]
  rw [yields_append, yields_cons_of_not_yield (Event.llmCall q) _ rfl,
    yields_partial_records svc q a b front]
  show (front.map (fun c => mkStreamRecord svc q a b c.answer c.metadata) ++
    [mkStreamRecord svc q a b (finalAnswer front t)
      (finalMetadata svc mm t)]).dropLast = _
  exact List.dropLast_concat

theorem partial_records_carry_chunk_fragment_witness :
    (yields (generate_answer_stream sampleService sampleModelMetadata "q"
        0 0 ([chunkA, chunkB] ++ [chunkEnd]) false).1).dropLast =
      [chunkA, chunkB].map
        (fun c => mkStreamRecord sampleService "q" 0 0 c.answer c.metadata) :=
  partial_records_carry_chunk_fragment sampleService sampleModelMetadata "q"
    0 0 [chunkA, chunkB] chunkEnd (by decide) (by decide)

/-- C6: the claim that the final record is emitted before the Answer
Persister runs is false on the code — for a single-terminal-chunk stream
the trace contains exactly one save and exactly one yield, and no yield
occurs before the save: `save_answer` runs first, the final `data:` record
is yielded after it. -/
theorem final_emit_before_persist_cex :
    (((generate_answer_stream sampleService sampleModelMetadata "q" 0 0
        [chunkOnly] false).1.takeWhile (fun e => !e.isSave)).all
          (fun e => !e.isYield) = true) ∧
    ((generate_answer_stream sampleService sampleModelMetadata "q" 0 0
        [chunkOnly] false).1.filter Event.isSave).length = 1 ∧
    ((generate_answer_stream sampleService sampleModelMetadata "q" 0 0
        [chunkOnly] false).1.filter Event.isYield).length = 1 := by
  refine ⟨?_, ?_, ?_⟩ <;> decide

/-- C6 (amended): on the terminal chunk the aggregator invokes the Answer
Persister exactly once with (question, full answer, final enriched
metadata), and then emits, as the last event, the final record carrying
that same answer and metadata: persistence immediately precedes the final
emission. -/
theorem persist_once_then_final_emit (svc : ChatLLMService)
    (mm : ModelMetadata) (q : String) (a b : Nat)
    (front : List ParsedRAGChunkResponse) (t : ParsedRAGChunkResponse)
    (hf : ∀ c ∈ front, c.last_chunk = false) (ht : t.last_chunk = true) :
    saves (generate_answer_stream svc mm q a b (front ++ [t]) false).1 =
      [(q, finalAnswer front t, finalMetadata svc mm t)] ∧
    (generate_answer_stream svc mm q a b (front ++ [t]) false).1.getLast? =
      some (Event.yieldRecord
        (mkStreamRecord svc q a b (finalAnswer front t)
          (finalMetadata svc mm t))) ∧
    (generate_answer_stream svc mm q a b (front ++ [t])
        false).1.dropLast.getLast? =
      some (Event.save q (finalAnswer front t) (finalMetadata svc mm t)) := by
  rw [generate_answer_stream_spec_fst svc mm q a b front t hf ht]
  have hshape : (Event.llmCall q ::
      front.map fun c =>
        Event.yieldRecord (mkStreamRecord svc q a b c.answer c.metadata)) ++
      [Event.save q (finalAnswer front t) (finalMetadata svc mm t),
       Event.yieldRecord
         (mkStreamRecord svc q a b (finalAnswer front t)
           (finalMetadata svc mm t))] =
      ((Event.llmCall q ::
        front.map fun c =>
          Event.yieldRecord (mkStreamRecord svc q a b c.answer c.metadata)) ++
        [Event.save q (finalAnswer front t) (finalMetadata svc mm t)]) ++
      [Event.yieldRecord
        (mkStreamRecord svc q a b (finalAnswer front t)
          (finalMetadata svc mm t))] := by
    simp
  refine ⟨?_, ?_, ?_⟩
  · rw [saves_append, saves_cons_of_not_save (Event.llmCall q) _ rfl,
      saves_partial_records svc q a b front]
    rfl
  · rw [hshape]
    exact List.getLast?_concat _
  · rw [hshape, List.dropLast_concat]
    exact List.getLast?_concat _

theorem persist_once_then_final_emit_witness :
    saves (generate_answer_stream sampleService sampleModelMetadata "q" 0 0
        ([chunkA] ++ [chunkEnd]) false).1 =
      [("q", finalAnswer [chunkA] chunkEnd,
        finalMetadata sampleService sampleModelMetadata chunkEnd)] ∧
    (generate_answer_stream sampleService sampleModelMetadata "q" 0 0
        ([chunkA] ++ [chunkEnd]) false).1.getLast? =
      some (Event.yieldRecord
        (mkStreamRecord sampleService "q" 0 0 (finalAnswer [chunkA] chunkEnd)
          (finalMetadata sampleService sampleModelMetadata chunkEnd))) ∧
    (generate_answer_stream sampleService sampleModelMetadata "q" 0 0
        ([chunkA] ++ [chunkEnd]) false).1.dropLast.getLast? =
      some (Event.save "q" (finalAnswer [chunkA] chunkEnd)
        (finalMetadata sampleService sampleModelMetadata chunkEnd)) :=
  persist_once_then_final_emit sampleService sampleModelMetadata "q" 0 0
    [chunkA] chunkEnd (by decide) (by decide)

/-- C7: the synthetic model identifier (`brain_id` of the descriptive
block) persisted by the synchronous path and by the streaming path is the
same pure function `generate_uuid_from_string` of the model name alone:
two runs with the same model name — whatever the path, the question, the
chat, the clock values or the other metadata — persist the identical id. -/
theorem synthetic_id_deterministic_across_paths (svc1 svc2 : ChatLLMService)
    (mm1 mm2 : ModelMetadata) (q1 q2 : String) (p : ParsedRAGResponse)
    (md : RAGResponseMetadata) (ne : Nat × Nat) (a b : Nat)
    (front : List ParsedRAGChunkResponse) (t : ParsedRAGChunkResponse)
    (hname : svc1.model_to_use.name = svc2.model_to_use.name)
    (hmd : p.metadata = some md)
    (hf : ∀ c ∈ front, c.last_chunk = false) (ht : t.last_chunk = true) :
    (saves (generate_answer svc1 mm1 q1 (.ok p) ne).1).map
        (fun s => s.2.2.metadata_model.map (fun m => m.brain_id)) =
      [some (generate_uuid_from_string svc1.model_to_use.name)] ∧
    (saves (generate_answer_stream svc2 mm2 q2 a b (front ++ [t])
        false).1).map
        (fun s => s.2.2.metadata_model.map (fun m => m.brain_id)) =
      [some (generate_uuid_from_string svc1.model_to_use.name)] := by
  constructor
  · rw [generate_answer_ok_some svc1 mm1 q1 p md ne hmd]
    rfl
  · rw [generate_answer_stream_spec_fst svc2 mm2 q2 a b front t hf ht,
      saves_append, saves_cons_of_not_save (Event.llmCall q2) _ rfl,
      saves_partial_records svc2 q2 a b front, hname]
    rfl

theorem synthetic_id_deterministic_across_paths_witness :
    (saves (generate_answer sampleService sampleModelMetadata "q1"
        (.ok sampleResponse) (1, 2)).1).map
        (fun s => s.2.2.metadata_model.map (fun m => m.brain_id)) =
      [some (generate_uuid_from_string sampleService.model_to_use.name)] ∧
    (saves (generate_answer_stream sampleService sampleModelMetadata "q2"
        3 4 ([chunkA] ++ [chunkEnd]) false).1).map
        (fun s => s.2.2.metadata_model.map (fun m => m.brain_id)) =
      [some (generate_uuid_from_string sampleService.model_to_use.name)] :=
  synthetic_id_deterministic_across_paths sampleService sampleService
    sampleModelMetadata sampleModelMetadata "q1" "q2" sampleResponse
    ⟨[("sources", "none")], none⟩ (1, 2) 3 4 [chunkA] chunkEnd rfl rfl
    (by decide) (by decide)

/-- C8: on a successful synchronous call (whose LLM response carries a
metadata record, as the invoker's contract guarantees), the enricher's
descriptive model block — name, description, image reference, display
name, synthetic id — is embedded in the metadata handed to the persister:
the persisted turn's metadata contains the block for the resolved model. -/
theorem sync_persisted_metadata_enriched (svc : ChatLLMService)
    (mm : ModelMetadata) (q : String) (p : ParsedRAGResponse)
    (md : RAGResponseMetadata) (ne : Nat × Nat)
    (hmd : p.metadata = some md) :
    (generate_answer svc mm q (.ok p) ne).1 =
      [Event.llmCall q,
       Event.save q p.answer
         { md with
           metadata_model :=
             some (chatLLMMetadataFor svc.model_to_use.name mm) }] ∧
    (generate_answer svc mm q (.ok p) ne).2 =
      .ok { chat_id := svc.chat_id
            message_id := ne.1
            user_message := q
            assistant := p.answer
            message_time := ne.2
            prompt_title := none
            brain_name := none
            brain_id := none
            metadata :=
              { md with
                metadata_model :=
                  some (chatLLMMetadataFor svc.model_to_use.name mm) } } := by
  rw [generate_answer_ok_some svc mm q p md ne hmd]
  exact ⟨rfl, rfl⟩

theorem sync_persisted_metadata_enriched_witness :
    (generate_answer sampleService sampleModelMetadata "q"
        (.ok sampleResponse) (1, 2)).1 =
      [Event.llmCall "q",
       Event.save "q" sampleResponse.answer
         { fields := [("sources", "none")]
           metadata_model :=
             some (chatLLMMetadataFor sampleService.model_to_use.name
               sampleModelMetadata) }] ∧
    (generate_answer sampleService sampleModelMetadata "q"
        (.ok sampleResponse) (1, 2)).2 =
      .ok { chat_id := sampleService.chat_id
            message_id := 1
            user_message := "q"
            assistant := sampleResponse.answer
            message_time := 2
            prompt_title := none
            brain_name := none
            brain_id := none
            metadata :=
              { fields := [("sources", "none")]
                metadata_model :=
                  some (chatLLMMetadataFor sampleService.model_to_use.name
                    sampleModelMetadata) } } :=
  sync_persisted_metadata_enriched sampleService sampleModelMetadata "q"
    sampleResponse ⟨[("sources", "none")], none⟩ (1, 2) rfl

/-- C9: cancellation contract — if the consumer pulls only a proper prefix
of the streamed output records, one that does not include the final
record, then the events executed by the generator up to that suspension
point contain no persistence: a cancelled stream never saves a turn. -/
theorem cancelled_stream_no_persist (svc : ChatLLMService)
    (mm : ModelMetadata) (q : String) (a b : Nat)
    (chunks : List ParsedRAGChunkResponse) (stream_fails : Bool) (n : Nat)
    (h : n < (yields (generate_answer_stream svc mm q a b chunks
        stream_fails).1).length) :
    countSaves (takeYields n
      (generate_answer_stream svc mm q a b chunks stream_fails).1) = 0 := by
  have hclean : ∀ e ∈ Event.llmCall q :: (streamLoop svc q a b chunks "").1,
      e.isSave = false := by
    intro e he
    rcases List.mem_cons.mp he with rfl | h2
    · rfl
    · obtain ⟨r, rfl⟩ := streamLoop_events_are_yields svc q a b chunks "" e h2
      rfl
  cases stream_fails with
  | true =>
    rw [generate_answer_stream_fails_fst] at h ⊢
    rw [← List.append_nil
      (Event.llmCall q :: (streamLoop svc q a b chunks "").1)]
    refine countSaves_takeYields_of_clean _ [] n hclean ?_
    exact Nat.le_of_lt h
  | false =>
    cases hlast : chunks.getLast? with
    | none =>
      have hnil : chunks = [] := List.getLast?_eq_none_iff.mp hlast
      subst hnil
      have htr : (generate_answer_stream svc mm q a b [] false).1 =
          [Event.llmCall q] := rfl
      rw [htr] at h
      simp [yields, yieldOf] at h
    | some response =>
      rw [generate_answer_stream_success_fst svc mm q a b chunks response
        hlast] at h ⊢
      refine countSaves_takeYields_of_clean _ _ n hclean ?_
      rw [yields_trace_length] at h
      rw [yields_cons_of_not_yield (Event.llmCall q) _ rfl]
      omega

theorem cancelled_stream_no_persist_witness :
    1 < (yields (generate_answer_stream sampleService sampleModelMetadata
        "q" 0 0 [chunkA, chunkEnd] false).1).length ∧
    countSaves (takeYields 1
      (generate_answer_stream sampleService sampleModelMetadata
        "q" 0 0 [chunkA, chunkEnd] false).1) = 0 :=
  ⟨by decide,
    cancelled_stream_no_persist sampleService sampleModelMetadata "q" 0 0
      [chunkA, chunkEnd] false 1 (by decide)⟩

end Quivr
